import Mathlib

/-!
Shallow embedding of the chat hub (`chatroom_server.py`) and the
turn-coordination client (`mcp_chatroom_client.py`).

The hub keeps, per `ChatServer.__init__`:
  * `clients`  : dict username -> list of message dicts (the mailboxes),
  * `users`    : set of live usernames,
  * `running`  : bool flag,
  * `waiting_users` : dict username -> wait-start time,
  * `last_message_timestamp` : dict username -> time of last message.

Python dicts are modelled as insertion-ordered association lists, Python
sets of strings as duplicate-free lists (all insertions guard on
membership, as the source does).  Wall-clock readings (`time.time()`)
are passed in explicitly as `Int` arguments, and formatted timestamps
(`datetime.now().strftime(...)`) as `String` arguments, since the code
only stores and compares them.
-/

/-- One broadcast message dict: sender, content, formatted timestamp. -/
structure Envelope where
  sender : String
  content : String
  timestamp : String
deriving DecidableEq, Repr

/-- The shared state of `ChatServer`. -/
structure ServerState where
  clients : List (String × List Envelope)
  users : List String
  running : Bool
  waiting : List (String × Int)
  lastMsg : List (String × Int)
deriving DecidableEq, Repr

/-- State built by `ChatServer.__init__`. -/
def initialState : ServerState :=
  { clients := [], users := [], running := true, waiting := [], lastMsg := [] }

/-- Dict read: value stored at the first matching key, if any. -/
def lookupKey {β : Type} : List (String × β) → String → Option β
  | [], _ => none
  | (k, v) :: rest, a => if k = a then some v else lookupKey rest a

/-- Dict write `d[k] = v`: overwrite in place, or add a new entry at the end. -/
def setKey {β : Type} : List (String × β) → String → β → List (String × β)
  | [], a, v => [(a, v)]
  | (k, w) :: rest, a, v => if k = a then (k, v) :: rest else (k, w) :: setKey rest a v

/-- Dict delete `del d[k]`: drop the first matching entry. -/
def delKey {β : Type} : List (String × β) → String → List (String × β)
  | [], _ => []
  | (k, w) :: rest, a => if k = a then rest else (k, w) :: delKey rest a

/-- Number of occurrences of a name in a list of names. -/
def countName (l : List String) (a : String) : Nat :=
  (l.filter (fun x => x = a)).length

/-- Set removal `s.remove(x)`: drop the first occurrence of the name. -/
def removeName : List String → String → List String
  | [], _ => []
  | x :: xs, a => if x = a then xs else x :: removeName xs a

/-- `ChatServer.register_user`: refuse while shutting down, otherwise add the
name to the live set with a fresh empty mailbox if absent, and report success. -/
def registerUser (s : ServerState) (u : String) : ServerState × Bool :=
  if s.running = false then (s, false)
  else if u ∈ s.users then (s, true)
  else ({ s with users := s.users ++ [u], clients := setKey s.clients u [] }, true)

/-- `ChatServer.add_message_to_queue`: append to the mailbox only when the
name still has one in `clients`. -/
def addMessageToQueue (s : ServerState) (u : String) (m : Envelope) : ServerState :=
  match lookupKey s.clients u with
  | none => s
  | some q => { s with clients := setKey s.clients u (q ++ [m]) }

/-- `ChatServer.get_messages`: return the queued mailbox contents and clear
the queue; an unknown name yields the empty list and no state change. -/
def getMessages (s : ServerState) (u : String) : List Envelope × ServerState :=
  match lookupKey s.clients u with
  | none => ([], s)
  | some q => (q, { s with clients := setKey s.clients u [] })

/-- `ChatServer.get_waiting_users`: snapshot of the waiting map. -/
def getWaitingUsers (s : ServerState) : List (String × Int) :=
  s.waiting

/-- `ChatServer.mark_user_waiting`: record the wait-start time of a live user. -/
def markUserWaiting (s : ServerState) (u : String) (t : Int) : ServerState :=
  if u ∈ s.users then { s with waiting := setKey s.waiting u t } else s

/-- The fan-out loop shared by `broadcast_message` and `stop`: append the
envelope to the mailbox of each listed name via `add_message_to_queue`
(`stop` inlines the same guarded append). -/
def deliverAll (st : ServerState) (l : List String) (m : Envelope) : ServerState :=
  l.foldl (fun acc u => addMessageToQueue acc u m) st

/-- `ChatServer.broadcast_message`: no-op when stopped; otherwise snapshot the
live set, update the sender's last-message time, clear the waiting map when a
non-server sender speaks to a non-empty waiting map, then deliver to the
snapshot. -/
def broadcastMessage (s : ServerState) (sender content : String) (t : Int) (ts : String) :
    ServerState :=
  if s.running = false then s
  else
    let msg : Envelope := { sender := sender, content := content, timestamp := ts }
    let currentUsers := s.users
    let s1 := if sender ≠ "Server" ∧ sender ∈ s.users
              then { s with lastMsg := setKey s.lastMsg sender t } else s
    let s2 := if sender ≠ "Server" ∧ s1.waiting ≠ []
              then { s1 with waiting := [] } else s1
    deliverAll s2 currentUsers msg

/-- `ChatServer.unregister_user`: when the name is live, remove it from the
live set and from the waiting and last-message maps, then broadcast the
departure notice; otherwise do nothing. -/
def unregisterUser (s : ServerState) (u : String) (t : Int) (ts : String) : ServerState :=
  if u ∈ s.users then
    let s1 : ServerState :=
      { s with users := removeName s.users u,
               waiting := delKey s.waiting u,
               lastMsg := delKey s.lastMsg u }
    broadcastMessage s1 "Server" (u ++ " has left the chat") t ts
  else s

/-- `ChatServer.stop`: when running, snapshot the live set, clear the live set
and the waiting map, drop the running flag, and append the shutdown envelope to
the mailbox of each user from the snapshot that still has one. -/
def stopServer (s : ServerState) (ts : String) : ServerState :=
  if s.running = false then s
  else
    let currentUsers := s.users
    let s1 := { s with running := false, users := [], waiting := [] }
    deliverAll s1 currentUsers { sender := "Server", content := "Server shutting down...", timestamp := ts }

/-- The `/reconnect` endpoint: refuse when stopped; re-add a name that still
has a mailbox but is not live; register a brand-new name; accept an already
live name. -/
def reconnectUser (s : ServerState) (u : String) : ServerState × Bool :=
  if s.running = false then (s, false)
  else if (lookupKey s.clients u).isSome ∧ u ∉ s.users then
    ({ s with users := s.users ++ [u] }, true)
  else if u ∉ s.users then registerUser s u
  else (s, true)

/-- One entry of the reminder tick in `check_waiting_users`: when the entry
has waited at least 10 seconds, broadcast the Server reminder and, if the name
is still in the waiting map, reset its start time to now. -/
def tickStep (t : Int) (ts : String) (st : ServerState) (p : String × Int) : ServerState :=
  if 10 ≤ t - p.2 then
    let st1 := broadcastMessage st "Server" (p.1 ++ " is still waiting for a response") t ts
    if (lookupKey st1.waiting p.1).isSome then { st1 with waiting := setKey st1.waiting p.1 t }
    else st1
  else st

/-- One iteration of `check_waiting_users`: snapshot the waiting map and
process every entry. -/
def tickWaiting (s : ServerState) (t : Int) (ts : String) : ServerState :=
  s.waiting.foldl (tickStep t ts) s

/-- The `check_waiting_users` loop: run one tick per supplied clock reading
while the running flag holds. -/
def checkWaitingRun : List (Int × String) → ServerState → ServerState
  | [], s => s
  | (t, ts) :: rest, s => if s.running then checkWaitingRun rest (tickWaiting s t ts) else s

/-- One frame yielded by the SSE `event_stream`: a batch of drained messages,
or the keepalive comment. -/
inductive SseFrame where
  | data (msgs : List Envelope)
  | keepalive
deriving DecidableEq, Repr

/-- Opening `/events`: auto-register the name when it is not live and the hub
is running. -/
def sseOpen (s : ServerState) (u : String) : ServerState :=
  if u ∉ s.users ∧ s.running then (registerUser s u).1 else s

/-- One iteration of the `event_stream` loop: stop when the hub is not running
or the user is no longer live; otherwise drain the mailbox, re-check the
running flag, and yield a data frame or a keepalive. -/
def sseStep (s : ServerState) (u : String) : Option (ServerState × SseFrame) :=
  if s.running = false then none
  else if u ∉ s.users then none
  else
    let r := getMessages s u
    if r.2.running = false then none
    else some (r.2, if r.1 ≠ [] then SseFrame.data r.1 else SseFrame.keepalive)

/-- Run the `event_stream` loop for at most `n` iterations, collecting the
yielded frames; the loop body sleeps one second per iteration. -/
def sseRun : Nat → ServerState → String → ServerState × List SseFrame
  | 0, s, _ => (s, [])
  | n + 1, s, u =>
    match sseStep s u with
    | none => (s, [])
    | some (s1, f) =>
      let r := sseRun n s1 u
      (r.1, f :: r.2)

/-- The `finally` block of `event_stream`: it only logs; the unregister call
is commented out in the source, so the hub state is unchanged on close. -/
def sseCleanup (s : ServerState) (_u : String) : ServerState :=
  s

/-!
Client side: `AsyncChatRoom` from `mcp_chatroom_client.py`.

The local state is the draft segment list, the inbound message queue
(a deque used FIFO), the processed-id set (a set of strings, modelled as
a duplicate-free list since the code only adds with a membership guard,
tests membership, measures size and clears), the talking-stick flag and
the configuration.  Network calls (`requests.post`) either succeed or
raise; each modelled method takes the outcome as an explicit `netFail`
flag together with the exception text.  `maybe_connect` is the identity
on an already connected client (`if not self._running: self._connect()`),
which is the situation all claims address, so the modelled methods start
after that guard.

Python string primitives used by the client are modelled on the
underlying character lists: `len` is `pyLen`, slicing `text[:n]` is
`pyTake`, `text[n:]` is `pyDrop`, `text[-n:]` is `pyTail`, and
`str.strip()` is `pyStrip`.
-/

/-- The local state of an `AsyncChatRoom` client. -/
structure ClientState where
  username : String
  maxAppendLength : Nat
  draftSegments : List String
  queue : List String
  processed : List String
  hasStick : Bool
deriving DecidableEq, Repr

/-- Python `len(s)`: number of characters. -/
def pyLen (s : String) : Nat :=
  s.data.length

/-- Python slice `s[:n]`. -/
def pyTake (s : String) (n : Nat) : String :=
  String.mk (s.data.take n)

/-- Python slice `s[n:]`. -/
def pyDrop (s : String) (n : Nat) : String :=
  String.mk (s.data.drop n)

/-- Python slice `s[-n:]` for positive `n` (the whole string when `n ≥ len`). -/
def pyTail (s : String) (n : Nat) : String :=
  String.mk (s.data.drop (s.data.length - n))

/-- Python `s.strip()`: remove leading and trailing whitespace. -/
def pyStrip (s : String) : String :=
  String.mk (((s.data.dropWhile Char.isWhitespace).reverse.dropWhile Char.isWhitespace).reverse)

/-- A single-quote character, written by code point. -/
def squote : String :=
  String.singleton (Char.ofNat 39)

/-- Does `startsWithChars sub l` hold: is `sub` a leading block of `l`? -/
def startsWithChars : List Char → List Char → Bool
  | [], _ => true
  | _ :: _, [] => false
  | a :: as, b :: bs => a == b && startsWithChars as bs

/-- Is `sub` a contiguous block of `l`? -/
def containsChars (sub : List Char) : List Char → Bool
  | [] => startsWithChars sub []
  | b :: bs => startsWithChars sub (b :: bs) || containsChars sub bs

/-- Python `sub in hay` on strings. -/
def strContains (hay sub : String) : Bool :=
  containsChars sub.data hay.data

/-- Set insertion `s.add(x)` on the processed-id set. -/
def addIdSet (l : List String) (x : String) : List String :=
  if x ∈ l then l else l ++ [x]

/-- `AsyncChatRoom._add_system_message`: enqueue a `[system]` line unless the
identical notice was already recorded in the processed set. -/
def addSystemMessage (cs : ClientState) (m : String) : ClientState :=
  if ("system:" ++ m) ∈ cs.processed then cs
  else { cs with processed := cs.processed ++ ["system:" ++ m],
                 queue := cs.queue ++ ["[system] " ++ m] }

/-- The inner collection loop of `_poll_new_message`: pop every queued line,
skipping a line already collected. -/
def pollLoop (acc : List String) : List String → List String
  | [] => acc
  | c :: rest => if c ∈ acc then pollLoop acc rest else pollLoop (acc ++ [c]) rest

/-- `AsyncChatRoom._poll_new_message`: drain the queue, drop duplicate lines,
join with newlines; an empty queue yields the empty string. -/
def pollNewMessage (cs : ClientState) : ClientState × String :=
  if cs.queue = [] then (cs, "")
  else ({ cs with queue := [] }, String.intercalate "\n" (pollLoop [] cs.queue))

/-- `AsyncChatRoom._get_current_draft`: join the segments and strip. -/
def getCurrentDraft (cs : ClientState) : String :=
  pyStrip (String.join cs.draftSegments)

/-- The draft preview used by the truncation notice: the last 50 characters
of the current draft. -/
def draftPreview (cd : String) : String :=
  if pyLen cd > 50 then pyTail cd 50 else cd

/-- The truncation notice text built in `AsyncChatRoom.append`. -/
def truncNotice (cd : String) : String :=
  "msg truncated: current draft suffix: " ++ squote ++ draftPreview cd ++ squote

/-- `AsyncChatRoom.append` on a connected client: refuse without the talking
stick; truncate an oversize piece to `max_append_length` and enqueue the
truncation notice; then drain the local queue. -/
def appendText (cs : ClientState) (text : String) : ClientState × String :=
  if cs.hasStick = false then
    pollNewMessage
      (addSystemMessage cs "You must claim the talking stick first by calling talking_stick()")
  else if pyLen text > cs.maxAppendLength then
    let truncated := pyTake text cs.maxAppendLength
    let cs1 := { cs with draftSegments := cs.draftSegments ++ [truncated] }
    let cs2 := addSystemMessage cs1 (truncNotice (getCurrentDraft cs1))
    pollNewMessage cs2
  else
    pollNewMessage { cs with draftSegments := cs.draftSegments ++ [text] }

/-- `AsyncChatRoom.push` on a connected client: when the stripped draft is
non-empty, record its id in the processed set and post it (a failed post only
adds a local notice); in every case drop the talking stick, clear the draft
and drain the local queue.  The middle component is the broadcast request
actually posted: sender name and message, or `none`. -/
def pushDraft (cs : ClientState) (netFail : Bool) (errText : String) :
    ClientState × Option (String × String) × String :=
  let draft := getCurrentDraft cs
  let r1 :=
    if draft ≠ "" then
      let csR := { cs with processed := addIdSet cs.processed (cs.username ++ ":" ++ draft) }
      if netFail then
        ((addSystemMessage csR ("Failed to send message: " ++ errText) : ClientState),
         (none : Option (String × String)))
      else (csR, some (cs.username, draft))
    else (cs, none)
  let cs2 := { r1.1 with hasStick := false, draftSegments := [] }
  let r2 := pollNewMessage cs2
  (r2.1, r1.2, r2.2)

/-- `AsyncChatRoom.talking_stick` on a connected client: clear the draft,
post the claim, and set the possession flag only when the post succeeded. -/
def talkingStickClaim (cs : ClientState) (netFail : Bool) (errText : String) :
    ClientState × String :=
  let cs1 := { cs with draftSegments := [] }
  if netFail then
    pollNewMessage (addSystemMessage cs1 ("Failed to claim talking stick: " ++ errText))
  else
    pollNewMessage { cs1 with hasStick := true }

/-- Handling of one inbound envelope in `AsyncChatRoom._sse_listener`: drop
own messages; drop an already processed id unless the sender is the Server;
drop a Server notice containing both `waiting` and the own username; enqueue
everything else, recording the id and clearing the processed set past 1000
entries.  The Boolean reports whether the envelope was enqueued. -/
def processIncoming (cs : ClientState) (sender content : String) : ClientState × Bool :=
  if sender = cs.username then (cs, false)
  else
    let msgId := sender ++ ":" ++ content
    if msgId ∈ cs.processed ∧ sender ≠ "Server" then (cs, false)
    else if sender = "Server" ∧ strContains content "waiting" = true
            ∧ strContains content cs.username = true then (cs, false)
    else
      let cs1 := { cs with processed := addIdSet cs.processed msgId,
                           queue := cs.queue ++ ["[" ++ sender ++ "]: " ++ content] }
      let cs2 := if cs1.processed.length > 1000 then { cs1 with processed := [] } else cs1
      (cs2, true)

/-! Basic lemmas about the dictionary and set operations. -/

theorem lookupKey_setKey {β : Type} (m : List (String × β)) (a b : String) (v : β) :
    lookupKey (setKey m a v) b = if a = b then some v else lookupKey m b := by
  induction m with
  | nil => simp [setKey, lookupKey]
  | cons p rest ih =>
    obtain ⟨k, w⟩ := p
    by_cases hka : k = a
    · subst hka
      by_cases hkb : k = b <;> simp [setKey, lookupKey, hkb]
    · by_cases hkb : k = b
      · subst hkb
        have : ¬ a = k := fun h => hka h.symm
        simp [setKey, lookupKey, hka, this]
      · simp [setKey, lookupKey, hka, hkb, ih]

theorem setKey_self {β : Type} {m : List (String × β)} {a : String} {v : β}
    (h : lookupKey m a = some v) : setKey m a v = m := by
  induction m with
  | nil => simp [lookupKey] at h
  | cons p rest ih =>
    obtain ⟨k, w⟩ := p
    by_cases hka : k = a
    · subst hka
      simp [lookupKey] at h
      simp [setKey, h]
    · simp [lookupKey, hka] at h
      simp [setKey, hka, ih h]

theorem lookupKey_none_of_not_mem {β : Type} {m : List (String × β)} {a : String}
    (h : a ∉ m.map Prod.fst) : lookupKey m a = none := by
  induction m with
  | nil => rfl
  | cons p rest ih =>
    simp only [List.map_cons, List.mem_cons] at h
    push_neg at h
    have hne : ¬ p.1 = a := fun hh => h.1 hh.symm
    obtain ⟨k, w⟩ := p
    simpa [lookupKey, hne] using ih h.2

theorem lookupKey_mem_of_nodup {β : Type} {m : List (String × β)} {p : String × β}
    (hn : (m.map Prod.fst).Nodup) (hp : p ∈ m) : lookupKey m p.1 = some p.2 := by
  induction m with
  | nil => cases hp
  | cons q rest ih =>
    simp only [List.map_cons, List.nodup_cons] at hn
    rcases List.mem_cons.mp hp with h | h
    · subst h
      obtain ⟨k, w⟩ := p
      simp [lookupKey]
    · obtain ⟨k, w⟩ := q
      have hka : ¬ k = p.1 := by
        intro hh
        exact hn.1 (hh ▸ (List.mem_map.mpr ⟨p, h, rfl⟩))
      simp [lookupKey, hka, ih hn.2 h]

theorem countName_cons (x : String) (l : List String) (a : String) :
    countName (x :: l) a = countName l a + (if x = a then 1 else 0) := by
  by_cases h : x = a <;> simp [countName, List.filter_cons, h, Nat.add_comm]

theorem countName_eq_zero {l : List String} {a : String} (h : a ∉ l) : countName l a = 0 := by
  induction l with
  | nil => rfl
  | cons x xs ih =>
    simp only [List.mem_cons] at h
    push_neg at h
    have : ¬ x = a := fun hh => h.1 hh.symm
    simp [countName_cons, this, ih h.2]

theorem countName_eq_one {l : List String} {a : String} (hn : l.Nodup) (hm : a ∈ l) :
    countName l a = 1 := by
  induction l with
  | nil => cases hm
  | cons x xs ih =>
    simp only [List.nodup_cons] at hn
    rcases List.mem_cons.mp hm with h | h
    · subst h
      simp [countName_cons, countName_eq_zero hn.1]
    · have : ¬ x = a := fun hh => hn.1 (hh ▸ h)
      simp [countName_cons, this, ih hn.2 h]

theorem mem_of_mem_removeName {l : List String} {a v : String} (h : v ∈ removeName l a) :
    v ∈ l := by
  induction l with
  | nil => cases h
  | cons x xs ih =>
    by_cases hxa : x = a
    · simp only [removeName, if_pos hxa] at h
      exact List.mem_cons_of_mem _ h
    · simp only [removeName, if_neg hxa, List.mem_cons] at h
      rcases h with h | h
      · exact h ▸ List.mem_cons_self _ _
      · exact List.mem_cons_of_mem _ (ih h)

theorem mem_removeName_of_ne {l : List String} {a v : String} (hv : v ≠ a) (h : v ∈ l) :
    v ∈ removeName l a := by
  induction l with
  | nil => cases h
  | cons x xs ih =>
    by_cases hxa : x = a
    · simp only [removeName, if_pos hxa]
      rcases List.mem_cons.mp h with hh | hh
      · exact absurd (hh.trans hxa) hv
      · exact hh
    · simp only [removeName, if_neg hxa, List.mem_cons]
      rcases List.mem_cons.mp h with hh | hh
      · exact Or.inl hh
      · exact Or.inr (ih hh)

theorem nodup_removeName {l : List String} {a : String} (hn : l.Nodup) :
    (removeName l a).Nodup := by
  induction l with
  | nil => exact List.nodup_nil
  | cons x xs ih =>
    simp only [List.nodup_cons] at hn
    by_cases hxa : x = a
    · simpa [removeName, hxa] using hn.2
    · simp only [removeName, if_neg hxa, List.nodup_cons]
      exact ⟨fun h => hn.1 (mem_of_mem_removeName h), ih hn.2⟩

theorem not_mem_removeName_self {l : List String} {a : String} (hn : l.Nodup) :
    a ∉ removeName l a := by
  induction l with
  | nil => simp [removeName]
  | cons x xs ih =>
    simp only [List.nodup_cons] at hn
    by_cases hxa : x = a
    · simpa [removeName, hxa] using (hxa ▸ hn.1)
    · simp only [removeName, if_neg hxa, List.mem_cons]
      push_neg
      exact ⟨fun h => hxa h.symm, ih hn.2⟩

theorem nodup_append_single {l : List String} {a : String} (hn : l.Nodup) (ha : a ∉ l) :
    (l ++ [a]).Nodup := by
  induction l with
  | nil => simp
  | cons x xs ih =>
    simp only [List.nodup_cons] at hn
    simp only [List.mem_cons] at ha
    push_neg at ha
    simp only [List.cons_append, List.nodup_cons, List.mem_append, List.mem_singleton]
    constructor
    · rintro (h | h)
      · exact hn.1 h
      · exact ha.1 h.symm
    · exact ih hn.2 ha.2

/-! Lemmas about the Python string primitives and the client helpers. -/

theorem strExt {a b : String} (h : a.data = b.data) : a = b := by
  cases a
  cases b
  exact congrArg String.mk h

theorem data_append (a b : String) : (a ++ b).data = a.data ++ b.data := by
  cases a
  cases b
  rfl

theorem join_one (a : String) : String.join [a] = a := by
  apply strExt
  simp [String.join, data_append]

theorem join_two (a b : String) : (String.join [a, b]).data = a.data ++ b.data := by
  simp [String.join, data_append]

theorem take_drop_join (text : String) (n : Nat) :
    String.join [pyTake text n, pyDrop text n] = text := by
  apply strExt
  rw [join_two]
  simp [pyTake, pyDrop]

theorem pyLen_take (text : String) (n : Nat) (h : n ≤ pyLen text) :
    pyLen (pyTake text n) = n := by
  simp only [pyLen, pyTake, List.length_take]
  simp only [pyLen] at h
  omega

theorem pyLen_drop (text : String) (n : Nat) : pyLen (pyDrop text n) = pyLen text - n := by
  simp [pyLen, pyDrop]

theorem intercalate_one (sep x : String) : String.intercalate sep [x] = x := by
  rfl

theorem poll_processed (cs : ClientState) : (pollNewMessage cs).1.processed = cs.processed := by
  unfold pollNewMessage
  split_ifs <;> rfl

theorem poll_hasStick (cs : ClientState) : (pollNewMessage cs).1.hasStick = cs.hasStick := by
  unfold pollNewMessage
  split_ifs <;> rfl

theorem poll_draft (cs : ClientState) :
    (pollNewMessage cs).1.draftSegments = cs.draftSegments := by
  unfold pollNewMessage
  split_ifs <;> rfl

theorem mem_addIdSet_self (l : List String) (x : String) : x ∈ addIdSet l x := by
  unfold addIdSet
  split_ifs with h
  · exact h
  · exact List.mem_append_right _ (List.mem_singleton.mpr rfl)

theorem addSys_processed_mono {cs : ClientState} {x : String} (m : String)
    (h : x ∈ cs.processed) : x ∈ (addSystemMessage cs m).processed := by
  unfold addSystemMessage
  split_ifs
  · exact h
  · exact List.mem_append_left _ h

theorem poll_queue (cs : ClientState) : (pollNewMessage cs).1.queue = [] := by
  unfold pollNewMessage
  split_ifs with h
  · exact h
  · rfl

theorem poll_maxLen (cs : ClientState) :
    (pollNewMessage cs).1.maxAppendLength = cs.maxAppendLength := by
  unfold pollNewMessage
  split_ifs <;> rfl

theorem poll_username (cs : ClientState) : (pollNewMessage cs).1.username = cs.username := by
  unfold pollNewMessage
  split_ifs <;> rfl

theorem addSys_draft (cs : ClientState) (m : String) :
    (addSystemMessage cs m).draftSegments = cs.draftSegments := by
  unfold addSystemMessage
  split_ifs <;> rfl

theorem addSys_hasStick (cs : ClientState) (m : String) :
    (addSystemMessage cs m).hasStick = cs.hasStick := by
  unfold addSystemMessage
  split_ifs <;> rfl

theorem addSys_maxLen (cs : ClientState) (m : String) :
    (addSystemMessage cs m).maxAppendLength = cs.maxAppendLength := by
  unfold addSystemMessage
  split_ifs <;> rfl

theorem addSys_username (cs : ClientState) (m : String) :
    (addSystemMessage cs m).username = cs.username := by
  unfold addSystemMessage
  split_ifs <;> rfl

/-! Lemmas about mailbox delivery and `broadcast_message`. -/

theorem addMsg_users (s : ServerState) (u : String) (m : Envelope) :
    (addMessageToQueue s u m).users = s.users := by
  unfold addMessageToQueue
  cases lookupKey s.clients u <;> rfl

theorem addMsg_running (s : ServerState) (u : String) (m : Envelope) :
    (addMessageToQueue s u m).running = s.running := by
  unfold addMessageToQueue
  cases lookupKey s.clients u <;> rfl

theorem addMsg_waiting (s : ServerState) (u : String) (m : Envelope) :
    (addMessageToQueue s u m).waiting = s.waiting := by
  unfold addMessageToQueue
  cases lookupKey s.clients u <;> rfl

theorem lookup_addMsg (s : ServerState) (u : String) (m : Envelope) (a : String) :
    lookupKey (addMessageToQueue s u m).clients a =
      if u = a then (lookupKey s.clients a).map (fun q => q ++ [m])
      else lookupKey s.clients a := by
  unfold addMessageToQueue
  by_cases hua : u = a
  · subst hua
    cases h : lookupKey s.clients u <;> simp [h, lookupKey_setKey]
  · cases h : lookupKey s.clients u <;> simp [h, lookupKey_setKey, hua]

theorem deliverAll_cons (st : ServerState) (u : String) (l : List String) (m : Envelope) :
    deliverAll st (u :: l) m = deliverAll (addMessageToQueue st u m) l m := by
  simp [deliverAll]

theorem deliverAll_fields (m : Envelope) :
    ∀ (l : List String) (st : ServerState),
      (deliverAll st l m).users = st.users ∧ (deliverAll st l m).running = st.running ∧
      (deliverAll st l m).waiting = st.waiting := by
  intro l
  induction l with
  | nil => intro st; exact ⟨rfl, rfl, rfl⟩
  | cons u l ih =>
    intro st
    rw [deliverAll_cons]
    refine ⟨?_, ?_, ?_⟩
    · rw [(ih _).1, addMsg_users]
    · rw [(ih _).2.1, addMsg_running]
    · rw [(ih _).2.2, addMsg_waiting]

theorem lookup_deliverAll (m : Envelope) (a : String) :
    ∀ (l : List String) (st : ServerState),
      lookupKey (deliverAll st l m).clients a =
        (lookupKey st.clients a).map (fun q => q ++ List.replicate (countName l a) m) := by
  intro l
  induction l with
  | nil =>
    intro st
    cases h : lookupKey st.clients a <;> simp [deliverAll, countName, h]
  | cons u l ih =>
    intro st
    rw [deliverAll_cons, ih, lookup_addMsg]
    by_cases hua : u = a
    · subst hua
      cases h : lookupKey st.clients u <;>
        simp [h, countName_cons, List.replicate_succ, List.append_assoc]
    · have : ¬ u = a := hua
      cases h : lookupKey st.clients a <;>
        simp [h, countName_cons, this]

theorem broadcast_stopped {s : ServerState} (h : s.running = false)
    (sender content : String) (t : Int) (ts : String) :
    broadcastMessage s sender content t ts = s := by
  simp [broadcastMessage, h]

theorem broadcast_users (s : ServerState) (sender content : String) (t : Int) (ts : String) :
    (broadcastMessage s sender content t ts).users = s.users := by
  unfold broadcastMessage
  split_ifs <;> simp [(deliverAll_fields _ _ _).1] <;> split_ifs <;> rfl

theorem broadcast_running (s : ServerState) (sender content : String) (t : Int) (ts : String) :
    (broadcastMessage s sender content t ts).running = s.running := by
  unfold broadcastMessage
  split_ifs <;> simp [(deliverAll_fields _ _ _).2.1] <;> split_ifs <;> rfl

theorem broadcast_waiting_server (s : ServerState) (content : String) (t : Int) (ts : String) :
    (broadcastMessage s "Server" content t ts).waiting = s.waiting := by
  unfold broadcastMessage
  split_ifs <;> simp_all [(deliverAll_fields _ _ _).2.2]

theorem broadcast_clients {s : ServerState} (h : s.running = true)
    (sender content : String) (t : Int) (ts : String) (a : String) :
    lookupKey (broadcastMessage s sender content t ts).clients a =
      (lookupKey s.clients a).map
        (fun q => q ++ List.replicate (countName s.users a)
          { sender := sender, content := content, timestamp := ts }) := by
  unfold broadcastMessage
  rw [if_neg (by simp [h])]
  split_ifs <;> simp [lookup_deliverAll] <;> split_ifs <;> rfl

theorem getMessages_running (s : ServerState) (u : String) :
    (getMessages s u).2.running = s.running := by
  unfold getMessages
  cases lookupKey s.clients u <;> rfl

theorem getMessages_users (s : ServerState) (u : String) :
    (getMessages s u).2.users = s.users := by
  unfold getMessages
  cases lookupKey s.clients u <;> rfl

theorem getMessages_empty {s : ServerState} {u : String}
    (h : lookupKey s.clients u = some []) : getMessages s u = ([], s) := by
  unfold getMessages
  rw [h, setKey_self h]

theorem lookup_isSome_broadcast (s : ServerState) (sender content : String) (t : Int)
    (ts : String) (a : String) :
    (lookupKey (broadcastMessage s sender content t ts).clients a).isSome
      = (lookupKey s.clients a).isSome := by
  by_cases h : s.running = true
  · rw [broadcast_clients h]
    cases lookupKey s.clients a <;> rfl
  · have hf : s.running = false := by
      cases hh : s.running
      · rfl
      · exact absurd hh h
    rw [broadcast_stopped hf]

theorem tickStep_fields (t : Int) (ts : String) (st : ServerState) (p : String × Int) :
    (tickStep t ts st p).users = st.users ∧ (tickStep t ts st p).running = st.running
    ∧ ∀ a, (lookupKey (tickStep t ts st p).clients a).isSome
        = (lookupKey st.clients a).isSome := by
  unfold tickStep
  split_ifs with h1
  · dsimp only
    split_ifs with h2
    · exact ⟨broadcast_users .., broadcast_running .., fun a => lookup_isSome_broadcast ..⟩
    · exact ⟨broadcast_users .., broadcast_running .., fun a => lookup_isSome_broadcast ..⟩
  · exact ⟨rfl, rfl, fun _ => rfl⟩

theorem tickFold_fields (t : Int) (ts : String) :
    ∀ (snap : List (String × Int)) (st : ServerState),
      ((snap.foldl (tickStep t ts) st).users = st.users)
      ∧ ((snap.foldl (tickStep t ts) st).running = st.running)
      ∧ ∀ a, (lookupKey (snap.foldl (tickStep t ts) st).clients a).isSome
          = (lookupKey st.clients a).isSome := by
  intro snap
  induction snap with
  | nil => intro st; exact ⟨rfl, rfl, fun _ => rfl⟩
  | cons p rest ih =>
    intro st
    rw [List.foldl_cons]
    refine ⟨?_, ?_, fun a => ?_⟩
    · rw [(ih _).1, (tickStep_fields t ts st p).1]
    · rw [(ih _).2.1, (tickStep_fields t ts st p).2.1]
    · rw [(ih _).2.2 a, (tickStep_fields t ts st p).2.2 a]

theorem tickStep_not_overdue {st : ServerState} {p : String × Int} {t : Int} (ts : String)
    (hod : ¬ 10 ≤ t - p.2) : tickStep t ts st p = st := by
  unfold tickStep
  rw [if_neg hod]

theorem tickStep_overdue {st : ServerState} {p : String × Int} {t : Int} (ts : String)
    (hrun : st.running = true) (hod : 10 ≤ t - p.2)
    (hlp : lookupKey st.waiting p.1 = some p.2) (hnd : st.users.Nodup) :
    (tickStep t ts st p).running = true
    ∧ (tickStep t ts st p).users = st.users
    ∧ (∀ u, lookupKey (tickStep t ts st p).waiting u =
        if p.1 = u then some t else lookupKey st.waiting u)
    ∧ (∀ v, lookupKey (tickStep t ts st p).clients v =
        (lookupKey st.clients v).map (fun q =>
          q ++ (if v ∈ st.users then
            [{ sender := "Server", content := p.1 ++ " is still waiting for a response",
               timestamp := ts }] else []))) := by
  unfold tickStep
  rw [if_pos hod]
  dsimp only
  have hcond : (lookupKey (broadcastMessage st "Server"
      (p.1 ++ " is still waiting for a response") t ts).waiting p.1).isSome = true := by
    rw [broadcast_waiting_server, hlp]
    rfl
  rw [if_pos hcond]
  refine ⟨?_, ?_, fun u => ?_, fun v => ?_⟩
  · dsimp only
    rw [broadcast_running]
    exact hrun
  · dsimp only
    rw [broadcast_users]
  · dsimp only
    rw [lookupKey_setKey, broadcast_waiting_server]
  · dsimp only
    rw [broadcast_clients hrun]
    by_cases hv : v ∈ st.users
    · rw [countName_eq_one hnd hv, if_pos hv]
      cases lookupKey st.clients v <;> simp
    · rw [countName_eq_zero hv, if_neg hv]
      cases lookupKey st.clients v <;> simp

theorem tick_fold_effects (t : Int) (ts : String) :
    ∀ (snap : List (String × Int)) (st : ServerState),
      st.running = true →
      (snap.map Prod.fst).Nodup →
      st.users.Nodup →
      (∀ p ∈ snap, lookupKey st.waiting p.1 = some p.2) →
      ((snap.foldl (tickStep t ts) st).running = true)
      ∧ ((snap.foldl (tickStep t ts) st).users = st.users)
      ∧ (∀ u ts0, lookupKey snap u = some ts0 →
          lookupKey (snap.foldl (tickStep t ts) st).waiting u =
            if 10 ≤ t - ts0 then some t else lookupKey st.waiting u)
      ∧ (∀ u, lookupKey snap u = none →
          lookupKey (snap.foldl (tickStep t ts) st).waiting u = lookupKey st.waiting u)
      ∧ (∀ v, lookupKey (snap.foldl (tickStep t ts) st).clients v =
          (lookupKey st.clients v).map (fun q =>
            q ++ (if v ∈ st.users then
              (snap.filter (fun p => 10 ≤ t - p.2)).map
                (fun p => { sender := "Server",
                            content := p.1 ++ " is still waiting for a response",
                            timestamp := ts })
              else []))) := by
  intro snap
  induction snap with
  | nil =>
    intro st h1 _ _ _
    refine ⟨h1, rfl, fun u ts0 h => ?_, fun u _ => rfl, fun v => ?_⟩
    · simp [lookupKey] at h
    · cases h : lookupKey st.clients v <;> simp [h]
  | cons p rest ih =>
    intro st h1 hkn hun hlk
    have hkn' : (rest.map Prod.fst).Nodup := by
      simp only [List.map_cons, List.nodup_cons] at hkn
      exact hkn.2
    have hp1 : p.1 ∉ rest.map Prod.fst := by
      simp only [List.map_cons, List.nodup_cons] at hkn
      exact hkn.1
    rw [List.foldl_cons]
    by_cases hod : 10 ≤ t - p.2
    · obtain ⟨hr2, hu2, hw2, hc2⟩ :=
        tickStep_overdue ts h1 hod (hlk p (List.mem_cons_self p rest)) hun
      have hun2 : (tickStep t ts st p).users.Nodup := by
        rw [hu2]
        exact hun
      have hlk2 : ∀ q ∈ rest, lookupKey (tickStep t ts st p).waiting q.1 = some q.2 := by
        intro q hq
        have hne : ¬ p.1 = q.1 := by
          intro hh
          apply hp1
          rw [hh]
          exact List.mem_map.mpr ⟨q, hq, rfl⟩
        rw [hw2 q.1, if_neg hne]
        exact hlk q (List.mem_cons_of_mem _ hq)
      obtain ⟨ihr, ihu, ihwA, ihwB, ihc⟩ := ih (tickStep t ts st p) hr2 hkn' hun2 hlk2
      refine ⟨ihr, by rw [ihu, hu2], fun u ts0 h => ?_, fun u h => ?_, fun v => ?_⟩
      · by_cases hpu : p.1 = u
        · have hts0 : ts0 = p.2 := by
            simp [lookupKey, hpu] at h
            exact h.symm
          have hnone : lookupKey rest u = none :=
            lookupKey_none_of_not_mem (by rw [← hpu]; exact hp1)
          rw [ihwB u hnone, hw2 u, if_pos hpu, hts0, if_pos hod]
        · have hrest : lookupKey rest u = some ts0 := by
            simpa [lookupKey, hpu] using h
          rw [ihwA u ts0 hrest, hw2 u, if_neg hpu]
      · have hpu : ¬ p.1 = u := by
          intro hh
          simp [lookupKey, hh] at h
        have hrest : lookupKey rest u = none := by
          simpa [lookupKey, hpu] using h
        rw [ihwB u hrest, hw2 u, if_neg hpu]
      · rw [ihc v, hc2 v, hu2, Option.map_map]
        by_cases hv : v ∈ st.users
        · cases lookupKey st.clients v <;>
            simp [hv, List.filter_cons, hod, Function.comp, List.append_assoc]
        · cases lookupKey st.clients v <;>
            simp [hv, Function.comp]
    · rw [tickStep_not_overdue ts hod]
      have hlk' : ∀ q ∈ rest, lookupKey st.waiting q.1 = some q.2 :=
        fun q hq => hlk q (List.mem_cons_of_mem _ hq)
      obtain ⟨ihr, ihu, ihwA, ihwB, ihc⟩ := ih st h1 hkn' hun hlk'
      refine ⟨ihr, ihu, fun u ts0 h => ?_, fun u h => ?_, fun v => ?_⟩
      · by_cases hpu : p.1 = u
        · have hts0 : ts0 = p.2 := by
            simp [lookupKey, hpu] at h
            exact h.symm
          have hnone : lookupKey rest u = none :=
            lookupKey_none_of_not_mem (by rw [← hpu]; exact hp1)
          rw [ihwB u hnone, hts0, if_neg hod]
        · have hrest : lookupKey rest u = some ts0 := by
            simpa [lookupKey, hpu] using h
          rw [ihwA u ts0 hrest]
      · have hpu : ¬ p.1 = u := by
          intro hh
          simp [lookupKey, hh] at h
        have hrest : lookupKey rest u = none := by
          simpa [lookupKey, hpu] using h
        rw [ihwB u hrest]
      · rw [ihc v]
        by_cases hv : v ∈ st.users
        · cases lookupKey st.clients v <;> simp [hv, List.filter_cons, hod]
        · cases lookupKey st.clients v <;> simp [hv]

theorem unregister_not_mem {s : ServerState} {u : String} (h : u ∉ s.users)
    (t : Int) (ts : String) : unregisterUser s u t ts = s := by
  unfold unregisterUser
  rw [if_neg h]

theorem unregister_effects {s : ServerState} {u : String} (hr : s.running = true)
    (hn : s.users.Nodup) (hmem : u ∈ s.users) (t : Int) (ts : String) :
    (unregisterUser s u t ts).running = true
    ∧ (unregisterUser s u t ts).users = removeName s.users u
    ∧ lookupKey (unregisterUser s u t ts).clients u = lookupKey s.clients u
    ∧ (∀ v, v ∈ s.users → v ≠ u →
        lookupKey (unregisterUser s u t ts).clients v =
          (lookupKey s.clients v).map (fun q => q ++
            [{ sender := "Server", content := u ++ " has left the chat", timestamp := ts }]))
    ∧ (∀ v, v ∉ s.users →
        lookupKey (unregisterUser s u t ts).clients v = lookupKey s.clients v) := by
  unfold unregisterUser
  rw [if_pos hmem]
  dsimp only
  have hRr : ({ s with users := removeName s.users u,
                       waiting := delKey s.waiting u,
                       lastMsg := delKey s.lastMsg u } : ServerState).running = true := hr
  refine ⟨?_, ?_, ?_, ?_, ?_⟩
  · rw [broadcast_running]
    exact hr
  · rw [broadcast_users]
  · rw [broadcast_clients hRr]
    dsimp only
    rw [countName_eq_zero (not_mem_removeName_self hn)]
    cases lookupKey s.clients u <;> simp
  · intro v hv hvu
    rw [broadcast_clients hRr]
    dsimp only
    rw [countName_eq_one (nodup_removeName hn) (mem_removeName_of_ne hvu hv)]
    cases lookupKey s.clients v <;> simp
  · intro v hv
    rw [broadcast_clients hRr]
    dsimp only
    rw [countName_eq_zero (fun hm2 => hv (mem_of_mem_removeName hm2))]
    cases lookupKey s.clients v <;> simp

/-- Hub states reachable from the freshly constructed server through the
operations the endpoints and background tasks perform. -/
inductive Reachable : ServerState → Prop where
  | init : Reachable initialState
  | register (s : ServerState) (u : String) :
      Reachable s → Reachable (registerUser s u).1
  | reconnect (s : ServerState) (u : String) :
      Reachable s → Reachable (reconnectUser s u).1
  | unregister (s : ServerState) (u : String) (t : Int) (ts : String) :
      Reachable s → Reachable (unregisterUser s u t ts)
  | drain (s : ServerState) (u : String) :
      Reachable s → Reachable (getMessages s u).2
  | broadcast (s : ServerState) (sender content : String) (t : Int) (ts : String) :
      Reachable s → Reachable (broadcastMessage s sender content t ts)
  | markWaiting (s : ServerState) (u : String) (t : Int) :
      Reachable s → Reachable (markUserWaiting s u t)
  | tick (s : ServerState) (t : Int) (ts : String) :
      Reachable s → Reachable (tickWaiting s t ts)
  | stop (s : ServerState) (ts : String) :
      Reachable s → Reachable (stopServer s ts)

/-- The hub invariant: a stopped hub has an empty live set, the live set has
no duplicates, and every live user still owns a mailbox. -/
def ServerInv (s : ServerState) : Prop :=
  (s.running = false → s.users = []) ∧ s.users.Nodup
  ∧ ∀ u ∈ s.users, (lookupKey s.clients u).isSome = true

theorem inv_register {s : ServerState} (u : String) (h : ServerInv s) :
    ServerInv (registerUser s u).1 := by
  obtain ⟨h1, h2, h3⟩ := h
  unfold registerUser
  split_ifs with hrf hmem
  · exact ⟨h1, h2, h3⟩
  · exact ⟨h1, h2, h3⟩
  · refine ⟨fun hf => absurd hf hrf, nodup_append_single h2 hmem, fun v hv => ?_⟩
    rw [lookupKey_setKey]
    rcases List.mem_append.mp hv with hv | hv
    · by_cases huv : u = v
      · simp [huv]
      · simp [huv, h3 v hv]
    · simp [List.mem_singleton.mp hv]

theorem reachable_inv {s : ServerState} (h : Reachable s) : ServerInv s := by
  induction h with
  | init => exact ⟨fun _ => rfl, List.nodup_nil, fun u hu => absurd hu (List.not_mem_nil u)⟩
  | register s u _ ih => exact inv_register u ih
  | reconnect s u _ ih =>
    obtain ⟨h1, h2, h3⟩ := ih
    unfold reconnectUser
    split_ifs with hrf hcon hmem
    · exact ⟨h1, h2, h3⟩
    · refine ⟨fun hf => absurd hf hrf, nodup_append_single h2 hcon.2, fun v hv => ?_⟩
      rcases List.mem_append.mp hv with hv | hv
      · exact h3 v hv
      · rw [List.mem_singleton.mp hv]
        exact hcon.1
    · exact ⟨h1, h2, h3⟩
    · exact inv_register u ⟨h1, h2, h3⟩
  | unregister s u t ts _ ih =>
    obtain ⟨h1, h2, h3⟩ := ih
    unfold unregisterUser
    split_ifs with hmem
    · dsimp only
      refine ⟨?_, ?_, ?_⟩
      · intro hf
        rw [broadcast_running] at hf
        have : u ∈ ([] : List String) := by
          rw [← h1 hf]
          exact hmem
        cases this
      · rw [broadcast_users]
        exact nodup_removeName h2
      · intro v hv
        rw [broadcast_users] at hv
        rw [lookup_isSome_broadcast]
        exact h3 v (mem_of_mem_removeName hv)
    · exact ⟨h1, h2, h3⟩
  | drain s u _ ih =>
    obtain ⟨h1, h2, h3⟩ := ih
    unfold getMessages
    cases hq : lookupKey s.clients u with
    | none => exact ⟨h1, h2, h3⟩
    | some q =>
      refine ⟨h1, h2, fun v hv => ?_⟩
      rw [lookupKey_setKey]
      by_cases huv : u = v
      · simp [huv]
      · simp [huv, h3 v hv]
  | broadcast s sender content t ts _ ih =>
    obtain ⟨h1, h2, h3⟩ := ih
    refine ⟨?_, ?_, ?_⟩
    · intro hf
      rw [broadcast_running] at hf
      rw [broadcast_users]
      exact h1 hf
    · rw [broadcast_users]
      exact h2
    · intro v hv
      rw [broadcast_users] at hv
      rw [lookup_isSome_broadcast]
      exact h3 v hv
  | markWaiting s u t _ ih =>
    obtain ⟨h1, h2, h3⟩ := ih
    unfold markUserWaiting
    split_ifs with hmem
    · exact ⟨h1, h2, h3⟩
    · exact ⟨h1, h2, h3⟩
  | tick s t ts _ ih =>
    obtain ⟨h1, h2, h3⟩ := ih
    obtain ⟨hu, hr, hc⟩ := tickFold_fields t ts s.waiting s
    unfold tickWaiting
    refine ⟨?_, ?_, ?_⟩
    · intro hf
      rw [hr] at hf
      rw [hu]
      exact h1 hf
    · rw [hu]
      exact h2
    · intro v hv
      rw [hu] at hv
      rw [hc]
      exact h3 v hv
  | stop s ts _ ih =>
    unfold stopServer
    split_ifs with hrf
    · exact ih
    · dsimp only
      refine ⟨fun _ => ?_, ?_, fun v hv => ?_⟩
      · rw [(deliverAll_fields _ _ _).1]
      · rw [(deliverAll_fields _ _ _).1]
        exact List.nodup_nil
      · rw [(deliverAll_fields _ _ _).1] at hv
        cases hv

/-! Claim theorems. -/

/-- C3: after `broadcast_message` from a non-server sender completes on a
running hub, the waiting set is empty: `get_waiting_users` returns the empty
mapping. -/
theorem c3_broadcast_clears_waiting (s : ServerState) (sender content : String) (t : Int)
    (ts : String) (h1 : s.running = true) (h2 : sender ≠ "Server") :
    getWaitingUsers (broadcastMessage s sender content t ts) = [] := by
  unfold getWaitingUsers broadcastMessage
  rw [if_neg (by simp [h1])]
  dsimp only
  split_ifs with hA hB hB <;>
    rw [(deliverAll_fields _ _ _).2.2] <;>
    first
      | rfl
      | (push_neg at hB; exact hB h2)

/-- Concrete hub used by the C3 witness: one live user with a waiting entry. -/
def c3S : ServerState :=
  { clients := [("A", [])], users := ["A"], running := true,
    waiting := [("A", 5)], lastMsg := [] }

/-- C3 witness: a concrete running hub with a waiting entry, cleared by a
broadcast from `A`. -/
theorem c3_witness :
    c3S.running = true ∧ ("A" : String) ≠ "Server"
    ∧ getWaitingUsers (broadcastMessage c3S "A" "hi" 7 "07:00:00") = [] :=
  ⟨rfl, by decide, c3_broadcast_clears_waiting c3S "A" "hi" 7 "07:00:00" rfl (by decide)⟩

/-- C8: `get_messages` returns the current mailbox contents and leaves the
mailbox empty; a name with no mailbox yields the empty list and no state
change, never an error. -/
theorem c8_drain_total (s : ServerState) (u : String) :
    (getMessages s u).1 = (lookupKey s.clients u).getD []
    ∧ (lookupKey s.clients u = none → getMessages s u = ([], s))
    ∧ (∀ q, lookupKey s.clients u = some q →
        lookupKey (getMessages s u).2.clients u = some [])
    ∧ (∀ v, v ≠ u → lookupKey (getMessages s u).2.clients v = lookupKey s.clients v) := by
  unfold getMessages
  cases h : lookupKey s.clients u with
  | none => simp [h]
  | some q =>
    refine ⟨by simp [h], by simp [h], fun q' _ => ?_, fun v hv => ?_⟩
    · simp [h, lookupKey_setKey]
    · have : ¬ u = v := fun hh => hv hh.symm
      simp [h, lookupKey_setKey, this]

/-- Concrete hub used by the C8 witness: one queued envelope for `A`. -/
def c8S : ServerState :=
  { clients := [("A", [{ sender := "X", content := "hi", timestamp := "09:00:00" }])],
    users := ["A"], running := true, waiting := [], lastMsg := [] }

/-- C8 witness: draining a known mailbox empties it; draining an unknown name
returns the empty list and changes nothing. -/
theorem c8_drain_witness :
    (lookupKey c8S.clients "B" = none ∧ getMessages c8S "B" = ([], c8S))
    ∧ lookupKey (getMessages c8S "A").2.clients "A" = some [] :=
  ⟨⟨by decide, (c8_drain_total c8S "B").2.1 (by decide)⟩,
    (c8_drain_total c8S "A").2.2.1
      [{ sender := "X", content := "hi", timestamp := "09:00:00" }] (by decide)⟩

/-- C1 counterexample: register `A` and `B`, unregister `A` (which queues a
departure notice for `B`), then stop the hub.  The mailbox of `A` — a key of
the clients map — receives no shutdown envelope, and the mailbox of `B` is
not empty afterwards, against the claim. -/
theorem c1_stop_counterexample :
    (stopServer
        (unregisterUser ((registerUser ((registerUser initialState "A").1) "B").1) "A" 0 "t1")
        "t2").clients =
      [("A", []),
       ("B", [{ sender := "Server", content := "A has left the chat", timestamp := "t1" },
              { sender := "Server", content := "Server shutting down...", timestamp := "t2" }])]
    ∧ ¬ (∀ p ∈ (stopServer
          (unregisterUser ((registerUser ((registerUser initialState "A").1) "B").1) "A" 0 "t1")
          "t2").clients, p.2 = ([] : List Envelope)) := by
  exact ⟨by decide, by decide⟩

/-- C1 (amended): on a running hub, `stop` appends exactly one final
shutdown envelope to the mailbox of each participant that is live at that
moment, leaves every other mailbox untouched, clears the live set and the
waiting set and drops the running flag; no mailbox is cleared. -/
theorem c1_stop_amended (s : ServerState) (ts : String)
    (h1 : s.running = true) (h2 : s.users.Nodup) :
    (∀ u, u ∈ s.users → ∀ q, lookupKey s.clients u = some q →
       lookupKey (stopServer s ts).clients u =
         some (q ++ [{ sender := "Server", content := "Server shutting down...",
                       timestamp := ts }]))
    ∧ (∀ u, u ∉ s.users → lookupKey (stopServer s ts).clients u = lookupKey s.clients u)
    ∧ (stopServer s ts).users = [] ∧ (stopServer s ts).waiting = []
    ∧ (stopServer s ts).running = false := by
  unfold stopServer
  rw [if_neg (by simp [h1])]
  dsimp only
  refine ⟨?_, ?_, ?_, ?_, ?_⟩
  · intro u hu q hq
    rw [lookup_deliverAll]
    simp [countName_eq_one h2 hu, hq]
  · intro u hu
    rw [lookup_deliverAll]
    simp only [countName_eq_zero hu, List.replicate_zero, List.append_nil]
    cases lookupKey s.clients u <;> rfl
  · rw [(deliverAll_fields _ _ _).1]
  · rw [(deliverAll_fields _ _ _).2.2]
  · rw [(deliverAll_fields _ _ _).2.1]

/-- Concrete hub used by the C1 witness: a live user with a backlog and an
unregistered name with a preserved mailbox. -/
def c1S : ServerState :=
  { clients := [("A", []), ("B", [{ sender := "X", content := "hi", timestamp := "t0" }])],
    users := ["B"], running := true, waiting := [], lastMsg := [] }

/-- C1 witness: at the concrete hub, stopping appends the shutdown envelope
to the live mailbox of `B`, leaves the non-live mailbox of `A` untouched, and
clears the live set. -/
theorem c1_stop_witness :
    c1S.running = true ∧ c1S.users.Nodup
    ∧ lookupKey (stopServer c1S "t2").clients "B" =
        some [{ sender := "X", content := "hi", timestamp := "t0" },
              { sender := "Server", content := "Server shutting down...", timestamp := "t2" }]
    ∧ lookupKey (stopServer c1S "t2").clients "A" = lookupKey c1S.clients "A"
    ∧ (stopServer c1S "t2").users = [] :=
  ⟨rfl, by decide,
    by
      have h := (c1_stop_amended c1S "t2" rfl (by decide)).1 "B" (by decide)
        [{ sender := "X", content := "hi", timestamp := "t0" }] (by decide)
      simpa using h,
    (c1_stop_amended c1S "t2" rfl (by decide)).2.1 "A" (by decide),
    (c1_stop_amended c1S "t2" rfl (by decide)).2.2.1⟩

/-- C2 counterexample: a live user whose mailbox stays empty.  The stream
loop sleeps one second per iteration, so 61 keepalive iterations span more
than the claimed 60-second idle bound, yet the loop is still running (61
frames were yielded and the next step does not break), and after closing the
channel the participant is still in the live set. -/
theorem c2_idle_counterexample :
    (sseRun 61 ((registerUser initialState "A").1) "A").2 =
      List.replicate 61 SseFrame.keepalive
    ∧ sseStep ((sseRun 61 ((registerUser initialState "A").1) "A").1) "A" ≠ none
    ∧ "A" ∈ (sseCleanup ((sseRun 61 ((registerUser initialState "A").1) "A").1) "A").users := by
  exact ⟨by decide, by decide, by decide⟩

/-- C2 (amended): the delivery loop has no idle timeout: while the hub runs
and the participant stays live, any number of iterations over an empty
mailbox yields only keepalives and never terminates the loop; a step breaks
exactly when the hub is stopped or the participant has left the live set; and
closing the channel changes nothing, so a live participant stays live with
its mailbox intact. -/
theorem c2_idle_amended (n : Nat) (s : ServerState) (u : String)
    (h1 : s.running = true) (h2 : u ∈ s.users) (h3 : lookupKey s.clients u = some []) :
    sseRun n s u = (s, List.replicate n SseFrame.keepalive)
    ∧ sseCleanup s u = s ∧ u ∈ (sseCleanup s u).users
    ∧ (∀ s', sseStep s' u = none ↔ (s'.running = false ∨ u ∉ s'.users)) := by
  have hstep : sseStep s u = some (s, SseFrame.keepalive) := by
    unfold sseStep
    rw [if_neg (by simp [h1]), if_neg (show ¬ u ∉ s.users from fun h => h h2),
      getMessages_empty h3]
    simp [h1]
  refine ⟨?_, rfl, h2, ?_⟩
  · induction n with
    | zero => rfl
    | succ n ih => simp [sseRun, hstep, ih, List.replicate_succ]
  · intro s'
    unfold sseStep
    by_cases hr : s'.running = false
    · simp [hr]
    · by_cases hu : u ∈ s'.users
      · simp [hr, hu, getMessages_running]
      · simp [hr, hu]

/-- C4: a live participant with an empty mailbox collects the envelopes of
two broadcasts, in order; unregistering and then reconnecting the participant
neither deletes nor reorders the mailbox, so a drain after reconnect returns
exactly those two envelopes, and the participant is live again. -/
theorem c4_reconnect_backlog (s : ServerState) (a x1 m1 x2 m2 : String)
    (t1 t2 t3 : Int) (ts1 ts2 ts3 : String)
    (hrun : s.running = true) (hnd : s.users.Nodup) (ha : a ∈ s.users)
    (hm : lookupKey s.clients a = some []) :
    (getMessages
        ((reconnectUser
            (unregisterUser (broadcastMessage (broadcastMessage s x1 m1 t1 ts1) x2 m2 t2 ts2)
              a t3 ts3) a).1) a).1 =
      [{ sender := x1, content := m1, timestamp := ts1 },
       { sender := x2, content := m2, timestamp := ts2 }]
    ∧ a ∈ ((reconnectUser
        (unregisterUser (broadcastMessage (broadcastMessage s x1 m1 t1 ts1) x2 m2 t2 ts2)
          a t3 ts3) a).1).users := by
  have h1r : (broadcastMessage s x1 m1 t1 ts1).running = true := by
    rw [broadcast_running]; exact hrun
  have h1u : (broadcastMessage s x1 m1 t1 ts1).users = s.users := broadcast_users ..
  have h1m : lookupKey (broadcastMessage s x1 m1 t1 ts1).clients a =
      some [{ sender := x1, content := m1, timestamp := ts1 }] := by
    rw [broadcast_clients hrun, hm, countName_eq_one hnd ha]
    simp
  have h2r : (broadcastMessage (broadcastMessage s x1 m1 t1 ts1) x2 m2 t2 ts2).running = true := by
    rw [broadcast_running]; exact h1r
  have h2u : (broadcastMessage (broadcastMessage s x1 m1 t1 ts1) x2 m2 t2 ts2).users = s.users := by
    rw [broadcast_users, h1u]
  have h2m : lookupKey (broadcastMessage (broadcastMessage s x1 m1 t1 ts1) x2 m2 t2 ts2).clients a =
      some [{ sender := x1, content := m1, timestamp := ts1 },
            { sender := x2, content := m2, timestamp := ts2 }] := by
    rw [broadcast_clients h1r, h1m, h1u, countName_eq_one hnd ha]
    simp
  have hmem2 : a ∈ (broadcastMessage (broadcastMessage s x1 m1 t1 ts1) x2 m2 t2 ts2).users := by
    rw [h2u]; exact ha
  have hnd2 : (broadcastMessage (broadcastMessage s x1 m1 t1 ts1) x2 m2 t2 ts2).users.Nodup := by
    rw [h2u]; exact hnd
  obtain ⟨h3r, h3u, h3m, -, -⟩ := unregister_effects h2r hnd2 hmem2 t3 ts3
  rw [h2u] at h3u
  rw [h2m] at h3m
  have h3na : a ∉ (unregisterUser (broadcastMessage (broadcastMessage s x1 m1 t1 ts1) x2 m2 t2 ts2)
      a t3 ts3).users := by
    rw [h3u]; exact not_mem_removeName_self hnd
  have hrec : (reconnectUser
      (unregisterUser (broadcastMessage (broadcastMessage s x1 m1 t1 ts1) x2 m2 t2 ts2)
        a t3 ts3) a).1 =
      { unregisterUser (broadcastMessage (broadcastMessage s x1 m1 t1 ts1) x2 m2 t2 ts2)
          a t3 ts3 with
        users := (unregisterUser (broadcastMessage (broadcastMessage s x1 m1 t1 ts1) x2 m2 t2 ts2)
          a t3 ts3).users ++ [a] } := by
    unfold reconnectUser
    rw [if_neg (by simp [h3r]), if_pos ⟨by rw [h3m]; rfl, h3na⟩]
  rw [hrec]
  constructor
  · unfold getMessages
    dsimp only
    rw [h3m]
  · dsimp only
    exact List.mem_append_right _ (List.mem_singleton.mpr rfl)

/-- Concrete hub used by the C4 witness: two live users with empty mailboxes. -/
def c4S : ServerState :=
  { clients := [("A", []), ("B", [])], users := ["A", "B"], running := true,
    waiting := [], lastMsg := [] }

/-- C4 witness: two broadcasts from `B`, unregister and reconnect of `A`, and
the drain of `A` returns the two envelopes in order. -/
theorem c4_reconnect_witness :
    c4S.running = true ∧ c4S.users.Nodup ∧ "A" ∈ c4S.users
    ∧ lookupKey c4S.clients "A" = some []
    ∧ ((getMessages
          ((reconnectUser
              (unregisterUser (broadcastMessage (broadcastMessage c4S "B" "one" 1 "t1")
                "B" "two" 2 "t2") "A" 3 "t3") "A").1) "A").1 =
        [{ sender := "B", content := "one", timestamp := "t1" },
         { sender := "B", content := "two", timestamp := "t2" }]
      ∧ "A" ∈ ((reconnectUser
          (unregisterUser (broadcastMessage (broadcastMessage c4S "B" "one" 1 "t1")
            "B" "two" 2 "t2") "A" 3 "t3") "A").1).users) :=
  ⟨rfl, by decide, by decide, by decide,
    c4_reconnect_backlog c4S "A" "B" "one" "B" "two" 1 2 3 "t1" "t2" "t3"
      rfl (by decide) (by decide) (by decide)⟩

/-- C9: on any reachable hub, unregistering a live name appends the Server
departure notice to the mailbox of every participant still live after the
removal and leaves the departing mailbox untouched; unregistering a non-live
name changes nothing and broadcasts nothing. -/
theorem c9_unregister_broadcast (s : ServerState) (u : String) (t : Int) (ts : String)
    (hr : Reachable s) :
    (u ∈ s.users →
      (∀ v, v ∈ s.users → v ≠ u → ∀ q, lookupKey s.clients v = some q →
        lookupKey (unregisterUser s u t ts).clients v =
          some (q ++ [{ sender := "Server", content := u ++ " has left the chat",
                        timestamp := ts }]))
      ∧ lookupKey (unregisterUser s u t ts).clients u = lookupKey s.clients u)
    ∧ (u ∉ s.users → unregisterUser s u t ts = s) := by
  obtain ⟨hrf, hnd, -⟩ := reachable_inv hr
  constructor
  · intro hm
    have hrun : s.running = true := by
      cases hh : s.running
      · rw [hrf hh] at hm
        cases hm
      · rfl
    obtain ⟨-, -, hself, hothers, -⟩ := unregister_effects hrun hnd hm t ts
    refine ⟨fun v hv hvu q hq => ?_, hself⟩
    rw [hothers v hv hvu, hq]
    rfl
  · intro hnm
    exact unregister_not_mem hnm t ts

/-- Concrete reachable hub used by the C9 witness: register `A`, then `B`. -/
def c9S : ServerState :=
  (registerUser ((registerUser initialState "A").1) "B").1

/-- C9 witness: at the concrete hub, unregistering `A` appends the departure
notice to the mailbox of `B` and leaves the mailbox of `A` untouched. -/
theorem c9_unregister_witness :
    "A" ∈ c9S.users
    ∧ lookupKey (unregisterUser c9S "A" 0 "t1").clients "B" =
        some [{ sender := "Server", content := "A has left the chat", timestamp := "t1" }]
    ∧ lookupKey (unregisterUser c9S "A" 0 "t1").clients "A" = lookupKey c9S.clients "A" :=
  ⟨by decide,
    by
      have h := ((c9_unregister_broadcast c9S "A" 0 "t1"
        (Reachable.register _ "B" (Reachable.register _ "A" Reachable.init))).1
          (by decide)).1 "B" (by decide) (by decide) [] (by decide)
      simpa using h,
    ((c9_unregister_broadcast c9S "A" 0 "t1"
      (Reachable.register _ "B" (Reachable.register _ "A" Reachable.init))).1
        (by decide)).2⟩

/-- C7: on a reminder tick, every waiting entry at least 10 seconds old is
reset to the current time and a Server reminder for it is appended, in
snapshot order, to every live mailbox; younger entries are unchanged; and the
reminder loop exits as soon as the running flag is cleared. -/
theorem c7_reminder_tick (s : ServerState) (t : Int) (ts : String)
    (h1 : s.running = true) (hw : (s.waiting.map Prod.fst).Nodup) (hu : s.users.Nodup) :
    (∀ u ts0, lookupKey s.waiting u = some ts0 → 10 ≤ t - ts0 →
        lookupKey (tickWaiting s t ts).waiting u = some t)
    ∧ (∀ u ts0, lookupKey s.waiting u = some ts0 → ¬ 10 ≤ t - ts0 →
        lookupKey (tickWaiting s t ts).waiting u = some ts0)
    ∧ (∀ v q, v ∈ s.users → lookupKey s.clients v = some q →
        lookupKey (tickWaiting s t ts).clients v =
          some (q ++ (s.waiting.filter (fun p => 10 ≤ t - p.2)).map
            (fun p => { sender := "Server",
                        content := p.1 ++ " is still waiting for a response",
                        timestamp := ts })))
    ∧ (∀ (l : List (Int × String)) (s' : ServerState), s'.running = false →
        checkWaitingRun l s' = s') := by
  have hlk : ∀ p ∈ s.waiting, lookupKey s.waiting p.1 = some p.2 :=
    fun p hp => lookupKey_mem_of_nodup hw hp
  obtain ⟨-, -, hwA, -, hc⟩ := tick_fold_effects t ts s.waiting s h1 hw hu hlk
  refine ⟨fun u ts0 h hod => ?_, fun u ts0 h hod => ?_, fun v q hv hq => ?_, ?_⟩
  · unfold tickWaiting
    rw [hwA u ts0 h, if_pos hod]
  · unfold tickWaiting
    rw [hwA u ts0 h, if_neg hod]
    exact h
  · unfold tickWaiting
    rw [hc v, hq]
    simp [hv]
  · intro l s' hf
    cases l with
    | nil => rfl
    | cons a rest =>
      obtain ⟨ta, tsa⟩ := a
      unfold checkWaitingRun
      simp [hf]

/-- Concrete hub used by the C7 witness: `A` has waited 100 seconds, `B` only
5 seconds at clock 100. -/
def c7S : ServerState :=
  { clients := [("A", []), ("B", [])], users := ["A", "B"], running := true,
    waiting := [("A", 0), ("B", 95)], lastMsg := [] }

/-- C7 witness: at clock 100 the overdue entry for `A` resets to 100 and its
reminder lands in the mailbox of `B`; the young entry for `B` is untouched;
the loop exits on a stopped hub. -/
theorem c7_reminder_witness :
    c7S.running = true ∧ (c7S.waiting.map Prod.fst).Nodup ∧ c7S.users.Nodup
    ∧ lookupKey (tickWaiting c7S 100 "tick").waiting "A" = some 100
    ∧ lookupKey (tickWaiting c7S 100 "tick").waiting "B" = some 95
    ∧ lookupKey (tickWaiting c7S 100 "tick").clients "B" =
        some [{ sender := "Server", content := "A is still waiting for a response",
                timestamp := "tick" }]
    ∧ checkWaitingRun [(0, "x")] (stopServer c7S "te") = stopServer c7S "te" :=
  ⟨rfl, by decide, by decide,
    (c7_reminder_tick c7S 100 "tick" rfl (by decide) (by decide)).1 "A" 0
      (by decide) (by decide),
    (c7_reminder_tick c7S 100 "tick" rfl (by decide) (by decide)).2.1 "B" 95
      (by decide) (by decide),
    by
      rw [(c7_reminder_tick c7S 100 "tick" rfl (by decide) (by decide)).2.2.1 "B" []
        (by decide) (by decide)]
      decide,
    (c7_reminder_tick c7S 100 "tick" rfl (by decide) (by decide)).2.2.2 [(0, "x")]
      (stopServer c7S "te") (by decide)⟩

/-- C10: inbound envelopes from the client itself are always dropped; a
repeated (sender, content) pair is dropped only for non-Server senders; a
Server envelope is enqueued even when repeated, except that a Server notice
containing both `waiting` and the own username is always dropped. -/
theorem c10_dedup_rules (cs : ClientState) (sender content : String) :
    (sender = cs.username → processIncoming cs sender content = (cs, false))
    ∧ (sender ≠ cs.username → sender ≠ "Server" →
        (sender ++ ":" ++ content) ∈ cs.processed →
        processIncoming cs sender content = (cs, false))
    ∧ (sender = "Server" → sender ≠ cs.username →
        strContains content "waiting" = true → strContains content cs.username = true →
        processIncoming cs sender content = (cs, false))
    ∧ (sender = "Server" → sender ≠ cs.username →
        ¬ (strContains content "waiting" = true ∧ strContains content cs.username = true) →
        (processIncoming cs sender content).2 = true
        ∧ (processIncoming cs sender content).1.queue =
            cs.queue ++ ["[" ++ sender ++ "]: " ++ content])
    ∧ (sender ≠ cs.username → sender ≠ "Server" →
        (sender ++ ":" ++ content) ∉ cs.processed →
        (processIncoming cs sender content).2 = true
        ∧ (processIncoming cs sender content).1.queue =
            cs.queue ++ ["[" ++ sender ++ "]: " ++ content]) := by
  refine ⟨fun h => ?_, fun h1 h2 h3 => ?_, fun h1 h2 h3 h4 => ?_,
    fun h1 h2 h3 => ?_, fun h1 h2 h3 => ?_⟩
  · unfold processIncoming
    rw [if_pos h]
  · unfold processIncoming
    rw [if_neg h1]
    dsimp only
    rw [if_pos ⟨h3, h2⟩]
  · unfold processIncoming
    rw [if_neg h2]
    dsimp only
    rw [if_neg (fun hc => hc.2 h1), if_pos ⟨h1, h3, h4⟩]
  · unfold processIncoming
    rw [if_neg h2]
    dsimp only
    rw [if_neg (fun hc => hc.2 h1), if_neg (fun hc => h3 ⟨hc.2.1, hc.2.2⟩)]
    dsimp only
    constructor
    · rfl
    · split_ifs <;> rfl
  · unfold processIncoming
    rw [if_neg h1]
    dsimp only
    rw [if_neg (fun hc => h3 hc.1), if_neg (fun hc => h2 hc.1)]
    dsimp only
    constructor
    · rfl
    · split_ifs <;> rfl

/-- Concrete client used by the C10 witness: the pair (Server, hello) has
already been processed. -/
def c10C : ClientState :=
  { username := "Claude", maxAppendLength := 200, draftSegments := [], queue := [],
    processed := ["Server:hello"], hasStick := false }

/-- C10 witness: an already-processed Server envelope is enqueued again. -/
theorem c10_dedup_witness :
    ("Server" : String) ≠ "Claude"
    ∧ ("Server:hello" : String) ∈ c10C.processed
    ∧ (processIncoming c10C "Server" "hello").2 = true
    ∧ (processIncoming c10C "Server" "hello").1.queue = ["[Server]: hello"] :=
  ⟨by decide, by decide,
    ((c10_dedup_rules c10C "Server" "hello").2.2.2.1 rfl (by decide) (by decide)).1,
    by
      rw [((c10_dedup_rules c10C "Server" "hello").2.2.2.1 rfl (by decide) (by decide)).2]
      decide⟩

/-- C6 counterexample: with the single draft segment consisting of one space,
the concatenation of the segments is non-empty, yet `push` sends nothing,
because the code strips the concatenation before the emptiness test. -/
theorem c6_push_counterexample :
    (pushDraft { username := "Claude", maxAppendLength := 200, draftSegments := [" "],
                 queue := [], processed := [], hasStick := true } false "").2.1 = none
    ∧ String.join [" "] ≠ "" :=
  ⟨by decide, by decide⟩

/-- C6 (amended): `push` sends the whitespace-stripped concatenation of the
draft segments when that is non-empty, as a broadcast from the own name,
recording the (sender, content) id in the de-duplication set (also on a
failed send, since the id is recorded before posting); in every case it
releases the talking stick and clears the draft.  The concrete round trip
claim floor, append `hello `, append `world`, push sends `hello world`. -/
theorem c6_push_amended (cs : ClientState) (netFail : Bool) (err : String) :
    (getCurrentDraft cs ≠ "" → netFail = false →
        (pushDraft cs netFail err).2.1 = some (cs.username, getCurrentDraft cs))
    ∧ (getCurrentDraft cs ≠ "" →
        (cs.username ++ ":" ++ getCurrentDraft cs) ∈ (pushDraft cs netFail err).1.processed)
    ∧ (getCurrentDraft cs = "" → (pushDraft cs netFail err).2.1 = none)
    ∧ (pushDraft cs netFail err).1.hasStick = false
    ∧ (pushDraft cs netFail err).1.draftSegments = []
    ∧ ((pushDraft (appendText (appendText (talkingStickClaim
          { username := "Claude", maxAppendLength := 200, draftSegments := [],
            queue := [], processed := [], hasStick := false } false "").1
          "hello ").1 "world").1 false "").2.1 = some ("Claude", "hello world")
      ∧ (pushDraft (appendText (appendText (talkingStickClaim
          { username := "Claude", maxAppendLength := 200, draftSegments := [],
            queue := [], processed := [], hasStick := false } false "").1
          "hello ").1 "world").1 false "").1.hasStick = false
      ∧ (pushDraft (appendText (appendText (talkingStickClaim
          { username := "Claude", maxAppendLength := 200, draftSegments := [],
            queue := [], processed := [], hasStick := false } false "").1
          "hello ").1 "world").1 false "").1.draftSegments = []) := by
  refine ⟨fun hne hnf => ?_, fun hne => ?_, fun he => ?_, ?_, ?_, by decide, by decide, by decide⟩
  · subst hnf
    unfold pushDraft
    dsimp only
    rw [if_pos hne]
    simp
  · unfold pushDraft
    dsimp only
    rw [if_pos hne]
    cases netFail with
    | false =>
      rw [poll_processed]
      exact mem_addIdSet_self _ _
    | true =>
      rw [poll_processed]
      exact addSys_processed_mono _ (mem_addIdSet_self _ _)
  · unfold pushDraft
    dsimp only
    rw [if_neg (fun hc => hc he)]
  · unfold pushDraft
    dsimp only
    rw [poll_hasStick]
  · unfold pushDraft
    dsimp only
    rw [poll_draft]

/-- Concrete client used by the C6 witness: one draft segment `hi`, the
talking stick held. -/
def c6C : ClientState :=
  { username := "Claude", maxAppendLength := 200, draftSegments := ["hi"],
    queue := [], processed := [], hasStick := true }

/-- C6 witness: pushing the concrete draft sends it, records its id, and
returns to the released, empty-draft state. -/
theorem c6_push_witness :
    getCurrentDraft c6C ≠ ""
    ∧ (pushDraft c6C false "").2.1 = some (c6C.username, getCurrentDraft c6C)
    ∧ (c6C.username ++ ":" ++ getCurrentDraft c6C) ∈ (pushDraft c6C false "").1.processed
    ∧ (pushDraft c6C false "").1.hasStick = false
    ∧ (pushDraft c6C false "").1.draftSegments = [] :=
  ⟨by decide,
    (c6_push_amended c6C false "").1 (by decide) rfl,
    (c6_push_amended c6C false "").2.1 (by decide),
    (c6_push_amended c6C false "").2.2.2.1,
    (c6_push_amended c6C false "").2.2.2.2.1⟩

theorem pollLoop_single (x : String) : pollLoop [] [x] = [x] := by
  unfold pollLoop
  rw [if_neg (List.not_mem_nil x)]
  rfl

/-- C5 counterexample: with cap 3, append of the 4-character text `abc `
stores `abc` plus a truncation notice; appending the remaining suffix (one
space) and pushing sends `abc`, not the full original `abc `, because `push`
strips the concatenated draft. -/
theorem c5_truncation_counterexample :
    (pushDraft (appendText (appendText
        { username := "Claude", maxAppendLength := 3, draftSegments := [],
          queue := [], processed := [], hasStick := true } "abc ").1 " ").1
      false "").2.1 = some ("Claude", "abc")
    ∧ pyLen "abc " = 3 + 1
    ∧ ("abc" : String) ≠ "abc " :=
  ⟨by decide, by decide, by decide⟩

/-- C5 (amended): while holding the talking stick with a fresh empty draft,
appending a text one character over the cap stores a segment of exactly the
cap length and returns the truncation notice; appending the remaining suffix
makes the concatenated draft equal the full original text (no cap on the
concatenation); push then sends the full original text stripped of leading
and trailing whitespace (equal to the original exactly when the original has
no surrounding whitespace; nothing is sent when it strips to empty). -/
theorem c5_truncation_amended (cs : ClientState) (text : String)
    (hstick : cs.hasStick = true) (hseg : cs.draftSegments = [])
    (hq : cs.queue = []) (hp : cs.processed = [])
    (hcap : 1 ≤ cs.maxAppendLength) (hlen : pyLen text = cs.maxAppendLength + 1) :
    ((appendText cs text).1).draftSegments = [pyTake text cs.maxAppendLength]
    ∧ pyLen (pyTake text cs.maxAppendLength) = cs.maxAppendLength
    ∧ (appendText cs text).2
        = "[system] " ++ truncNotice (pyStrip (pyTake text cs.maxAppendLength))
    ∧ ((appendText ((appendText cs text).1) (pyDrop text cs.maxAppendLength)).1).draftSegments
        = [pyTake text cs.maxAppendLength, pyDrop text cs.maxAppendLength]
    ∧ String.join [pyTake text cs.maxAppendLength, pyDrop text cs.maxAppendLength] = text
    ∧ (pushDraft ((appendText ((appendText cs text).1) (pyDrop text cs.maxAppendLength)).1)
          false "").2.1
        = (if pyStrip text = "" then none else some (cs.username, pyStrip text)) := by
  have hover : pyLen text > cs.maxAppendLength := by omega
  have hnf : ¬ cs.hasStick = false := by
    rw [hstick]
    simp
  have hdraft1 : getCurrentDraft
      { cs with draftSegments := cs.draftSegments ++ [pyTake text cs.maxAppendLength] } =
      pyStrip (pyTake text cs.maxAppendLength) := by
    unfold getCurrentDraft
    dsimp only
    rw [hseg, List.nil_append, join_one]
  have happ1 : appendText cs text =
      pollNewMessage (addSystemMessage
        { cs with draftSegments := cs.draftSegments ++ [pyTake text cs.maxAppendLength] }
        (truncNotice (pyStrip (pyTake text cs.maxAppendLength)))) := by
    unfold appendText
    rw [if_neg hnf, if_pos hover]
    dsimp only
    rw [hdraft1]
  have hsys : addSystemMessage
      { cs with draftSegments := cs.draftSegments ++ [pyTake text cs.maxAppendLength] }
      (truncNotice (pyStrip (pyTake text cs.maxAppendLength))) =
      { cs with
        draftSegments := cs.draftSegments ++ [pyTake text cs.maxAppendLength],
        processed := cs.processed ++
          ["system:" ++ truncNotice (pyStrip (pyTake text cs.maxAppendLength))],
        queue := cs.queue ++
          ["[system] " ++ truncNotice (pyStrip (pyTake text cs.maxAppendLength))] } := by
    unfold addSystemMessage
    rw [if_neg (show ¬ ("system:" ++ truncNotice (pyStrip (pyTake text cs.maxAppendLength)))
        ∈ cs.processed by rw [hp]; exact List.not_mem_nil _)]
  have hqx : ¬ (cs.queue ++
      ["[system] " ++ truncNotice (pyStrip (pyTake text cs.maxAppendLength))] = []) := by
    rw [hq]
    simp
  have hA1 : (appendText cs text).1 =
      { cs with
        draftSegments := cs.draftSegments ++ [pyTake text cs.maxAppendLength],
        processed := cs.processed ++
          ["system:" ++ truncNotice (pyStrip (pyTake text cs.maxAppendLength))],
        queue := [] } := by
    rw [happ1, hsys]
    unfold pollNewMessage
    rw [if_neg hqx]
  have hA1ret : (appendText cs text).2 =
      "[system] " ++ truncNotice (pyStrip (pyTake text cs.maxAppendLength)) := by
    rw [happ1, hsys]
    unfold pollNewMessage
    rw [if_neg hqx]
    dsimp only
    rw [hq, List.nil_append, pollLoop_single, intercalate_one]
  have hlendrop : ¬ pyLen (pyDrop text cs.maxAppendLength) > cs.maxAppendLength := by
    rw [pyLen_drop, hlen]
    omega
  have hA2 : (appendText ((appendText cs text).1) (pyDrop text cs.maxAppendLength)).1 =
      { cs with
        draftSegments := (cs.draftSegments ++ [pyTake text cs.maxAppendLength]) ++
          [pyDrop text cs.maxAppendLength],
        processed := cs.processed ++
          ["system:" ++ truncNotice (pyStrip (pyTake text cs.maxAppendLength))],
        queue := [] } := by
    rw [hA1]
    unfold appendText
    rw [if_neg hnf, if_neg hlendrop]
    unfold pollNewMessage
    rw [if_pos rfl]
  have hdraft2 : getCurrentDraft
      { cs with
        draftSegments := (cs.draftSegments ++ [pyTake text cs.maxAppendLength]) ++
          [pyDrop text cs.maxAppendLength],
        processed := cs.processed ++
          ["system:" ++ truncNotice (pyStrip (pyTake text cs.maxAppendLength))],
        queue := [] } = pyStrip text := by
    unfold getCurrentDraft
    dsimp only
    rw [hseg, List.nil_append, List.singleton_append, take_drop_join]
  refine ⟨?_, ?_, hA1ret, ?_, take_drop_join text cs.maxAppendLength, ?_⟩
  · rw [hA1]
    dsimp only
    rw [hseg, List.nil_append]
  · exact pyLen_take text cs.maxAppendLength (by omega)
  · rw [hA2]
    dsimp only
    rw [hseg, List.nil_append, List.singleton_append]
  · rw [hA2]
    unfold pushDraft
    dsimp only
    rw [hdraft2]
    by_cases hs : pyStrip text = ""
    · rw [if_neg (fun hc => hc hs), if_pos hs]
    · rw [if_pos hs, if_neg hs]
      rfl

/-- Concrete client used by the C5 witness: cap 3, stick held, all fresh. -/
def c5C : ClientState :=
  { username := "Claude", maxAppendLength := 3, draftSegments := [], queue := [],
    processed := [], hasStick := true }

/-- C5 witness: the boundary text `abc ` (cap + 1 characters) exercises the
amended truncation round trip at the concrete client. -/
theorem c5_truncation_witness :
    c5C.hasStick = true ∧ 1 ≤ c5C.maxAppendLength
    ∧ pyLen "abc " = c5C.maxAppendLength + 1
    ∧ ((appendText c5C "abc ").1).draftSegments = [pyTake "abc " c5C.maxAppendLength]
    ∧ pyLen (pyTake "abc " c5C.maxAppendLength) = c5C.maxAppendLength
    ∧ (pushDraft ((appendText ((appendText c5C "abc ").1)
          (pyDrop "abc " c5C.maxAppendLength)).1) false "").2.1
        = (if pyStrip "abc " = "" then none else some (c5C.username, pyStrip "abc ")) :=
  ⟨rfl, by decide, by decide,
    (c5_truncation_amended c5C "abc " rfl rfl rfl rfl (by decide) (by decide)).1,
    (c5_truncation_amended c5C "abc " rfl rfl rfl rfl (by decide) (by decide)).2.1,
    (c5_truncation_amended c5C "abc " rfl rfl rfl rfl (by decide) (by decide)).2.2.2.2.2⟩

/-- C2 witness: the concrete one-user hub runs five empty iterations without
breaking, and the participant is still live after close. -/
theorem c2_idle_witness :
    ((registerUser initialState "A").1).running = true
    ∧ "A" ∈ ((registerUser initialState "A").1).users
    ∧ lookupKey ((registerUser initialState "A").1).clients "A" = some []
    ∧ sseRun 5 ((registerUser initialState "A").1) "A" =
        ((registerUser initialState "A").1, List.replicate 5 SseFrame.keepalive)
    ∧ "A" ∈ (sseCleanup ((registerUser initialState "A").1) "A").users :=
  ⟨rfl, by decide, by decide,
    (c2_idle_amended 5 ((registerUser initialState "A").1) "A" rfl (by decide) (by decide)).1,
    (c2_idle_amended 5 ((registerUser initialState "A").1) "A" rfl (by decide) (by decide)).2.2.1⟩
